import Mathlib

/-!
Shallow embedding of the routing and request-lifecycle core of ripozo:
`ripozo/decorators.py` (the `_apiclassmethod`, `apimethod`, `validate` and
`translate` decorators) and `ripozo/resources/restmixins.py` (the CRUD+L
resource mixins and their link accumulation).

Python functions become Lean functions; the mutable attributes that the
decorators store on functions and on decorator instances become explicit
record state threaded through each call; code that can raise returns
`Except PyErr`.  External collaborators that the source only calls
(`request.validate`, `request.translate`, the manager, the pre/post
processors and action bodies) are oracles passed in as function arguments,
so every theorem quantifies over their behaviour.
-/

namespace Ripozo

/-- Python exceptions raised by the embedded code.  `typeError` carries the
name of the offending argument (for unexpected or colliding keyword
arguments), `indexError` models `args[0]` on an empty tuple, and the
remaining constructors stand for exceptions raised by external
collaborators (request validation, processors, action bodies). -/
inductive PyErr
  | typeError (arg : String)
  | indexError
  | validationError (code : Nat)
  | userError (code : Nat)
deriving DecidableEq, Repr

/-- A field descriptor is opaque to this layer (`FieldBase` instances are
only ever put into lists and concatenated); we identify one by a name. -/
abbrev Field := String

/-- A value appearing in an `apimethod` `options` mapping, e.g.
`methods=['POST']` or `no_pks=True` in restmixins.py. -/
inductive OptV
  | b (v : Bool)
  | s (v : String)
  | ls (v : List String)
deriving DecidableEq, Repr

/-- The keyword options of one `apimethod` application. -/
abbrev Options := List (String × OptV)

/-- A route registry entry `(route, endpoint, options)` as appended by
`apimethod.__call__` (decorators.py line 85). -/
abbrev RouteEntry := String × Option String × Options

/-!
## Route metadata accumulation across decorator stacking (decorators.py)

`apimethod.__call__` (lines 61-86) sets
`wrapped.routes = getattr(f, 'routes', [])` and then appends its one
`(route, endpoint, options)` entry; `wrapped.routes` aliases `f.routes`,
so in CPython the append mutates the shared list in place, but the list
value held by the object the decorator returns is exactly
`f.routes ++ [entry]`, which is what the value-semantics step below
produces.  `validate.__call__` (111-137) and `translate.__call__`
(157-176) build their wrapper with `functools.wraps(f)`, which copies
`f.__dict__` — and hence the `routes` attribute and the `__rest_route__`
marker when present — onto the wrapper unchanged; neither decorator
touches `routes` itself.  A function that was never under an `apimethod`
has no `routes` attribute, which is observationally identical to `routes
= []` because every reader uses `getattr(f, 'routes', [])`.
-/

/-- The projection of a (possibly decorated) function object onto the two
attributes the route registry reads: its accumulated `routes` list and the
routable-action marker (`__rest_route__` / `rest_route`). -/
structure FuncObj where
  routes : List RouteEntry := []
  rest_route : Bool := false
deriving DecidableEq, Repr

/-- One decorator layer in a stack: an `apimethod(route, endpoint,
**options)` application, a `validate(fields, manager_field_validators,
skip_required)` application, or a `translate(fields,
manager_field_validators)` application. -/
inductive Layer
  | apim (route : String) (endpoint : Option String) (options : Options)
  | valid (fields : List Field) (mfv : Bool) (skip : Bool)
  | transl (fields : List Field) (mfv : Bool)
deriving Repr

/-- Applying one decorator layer to a function object, restricted to the
route-registry attributes.  `apim` is `apimethod.__call__` (appends its
entry and sets the marker, then wraps in `_apiclassmethod`, whose
constructor copies `routes` and sets `rest_route = True`); `valid` and
`transl` preserve both attributes through `functools.wraps`. -/
def applyLayer : Layer → FuncObj → FuncObj
  | .apim route endpoint options, f =>
      { f with routes := f.routes ++ [(route, endpoint, options)], rest_route := true }
  | .valid _ _ _, f => f
  | .transl _ _, f => f

/-- Applying a stack of decorator layers, innermost first. -/
def applyLayers : List Layer → FuncObj → FuncObj
  | [], f => f
  | l :: ls, f => applyLayers ls (applyLayer l f)

/-- The route entries contributed by one layer: exactly one for an
`apimethod` application, none for `validate`/`translate`. -/
def layerRoutes : Layer → List RouteEntry
  | .apim route endpoint options => [(route, endpoint, options)]
  | .valid _ _ _ => []
  | .transl _ _ => []

/-- The concatenation, innermost first, of the entries contributed by each
layer of a decorator stack. -/
def layersRoutes : List Layer → List RouteEntry
  | [] => []
  | l :: ls => layerRoutes l ++ layersRoutes ls

/-!
## The class-bindable method wrapper `_apiclassmethod` (decorators.py 12-43)

`_apiclassmethod.__get__(obj, klass)` closes over the class the attribute
was looked up on (CPython's descriptor protocol always passes the
*accessing* class as `klass` — for `B.action` it passes `(None, B)`, for
`b.action` with `b` an instance of `B` it passes `(b, B)` — regardless of
which ancestor actually defines the attribute) and returns `newfunc`.
`newfunc(*args)` takes positional arguments only; when `args[0]` is not a
type it prepends `klass`, otherwise it forwards the arguments untouched.
-/

/-- A runtime value passed as a positional argument: a Python class object
(an instance of `type`), a request container, or an opaque datum. -/
inductive ArgV
  | typeArg (name : String)
  | reqArg (id : Nat)
  | natArg (n : Nat)
deriving DecidableEq, Repr

/-- Embeds `isinstance(x, type)` for the values of `ArgV`. -/
def isType : ArgV → Bool
  | .typeArg _ => true
  | _ => false

/-- The keyword arguments of a Python call, in the order written. -/
abbrev KwArgs := List (String × ArgV)

/-- A Python instance, identified by the class it is an instance of. -/
structure PyInstance where
  cls : String
deriving DecidableEq, Repr

/-- The `_apiclassmethod` object (decorators.py 12-21): holds the wrapped
function `f`, the `rest_route = True` marker, and the `routes` list copied
from `f`.  The underlying function receives the full positional argument
list (its `cls` parameter is the head). -/
structure apiclassmethod (β : Type) where
  f : List ArgV → β
  rest_route : Bool := true
  routes : List RouteEntry := []

/-- `if klass is None: klass = type(obj)` (decorators.py 24-25).  CPython
passes `klass = None` only on a manual `__get__` call; `type(None)` is
`NoneType`. -/
def resolveKlass (obj : Option PyInstance) (klass : Option String) : String :=
  match klass with
  | some k => k
  | none =>
      match obj with
      | some o => o.cls
      | none => "NoneType"

/-- The bound function `newfunc` returned by `_apiclassmethod.__get__`
together with the attributes set on it (`__rest_route__ = True` and
`newfunc.routes = getattr(self.f, 'routes', [])`, decorators.py 33-34). -/
structure BoundFunc (β : Type) where
  call : List ArgV → KwArgs → Except PyErr β
  rest_route : Bool
  routes : List RouteEntry

/-- Embeds `_apiclassmethod.__get__` (decorators.py 23-35).  The returned
`newfunc` has signature `(*args)`: it declares no named parameter and no
`**kwargs`, so CPython raises `TypeError` naming the first unexpected
keyword before the body runs; with no positional arguments `args[0]`
raises `IndexError`; otherwise, when `args[0]` is not a type the
underlying function is called as `method(klass, *args)`, else as
`method(*args)`. -/
def dunderGet {β : Type} (self : apiclassmethod β) (obj : Option PyInstance)
    (klass : Option String) : BoundFunc β :=
  let k := resolveKlass obj klass
  { call := fun pos kw =>
      match kw with
      | (n, _) :: _ => .error (.typeError n)
      | [] =>
          match pos with
          | [] => .error .indexError
          | a :: _ =>
              if isType a then .ok (self.f pos)
              else .ok (self.f (.typeArg k :: pos))
    rest_route := true
    routes := self.routes }

/-- Removes the first keyword argument named `name` from a keyword list,
returning its value and the remaining keywords. -/
def popKw (name : String) : KwArgs → Option (ArgV × KwArgs)
  | [] => none
  | (k, v) :: rest =>
      if k = name then some (v, rest)
      else
        match popKw name rest with
        | some (v2, r2) => some (v2, (k, v) :: r2)
        | none => none

/-- Embeds CPython argument binding for the signature of `wrapped(cls,
request, *args, **kwargs)` built by `apimethod.__call__` (decorators.py
72-73): `cls` and `request` bind positionally first and by keyword as a
fallback, a keyword colliding with an already-bound parameter raises
`TypeError`, the remaining positionals land in `*args` and the remaining
keywords in `**kwargs`.  Returns the bound `(cls, request, args, kwargs)`. -/
def bindWrapped (pos : List ArgV) (kw : KwArgs) :
    Except PyErr (ArgV × ArgV × List ArgV × KwArgs) :=
  match pos with
  | c :: r :: rest =>
      if (popKw "cls" kw).isSome then .error (.typeError "cls")
      else if (popKw "request" kw).isSome then .error (.typeError "request")
      else .ok (c, r, rest, kw)
  | [c] =>
      if (popKw "cls" kw).isSome then .error (.typeError "cls")
      else
        match popKw "request" kw with
        | some (r, kw2) => .ok (c, r, [], kw2)
        | none => .error (.typeError "request")
  | [] =>
      match popKw "cls" kw with
      | some (c, kw1) =>
          match popKw "request" kw1 with
          | some (r, kw2) => .ok (c, r, [], kw2)
          | none => .error (.typeError "request")
      | none => .error (.typeError "cls")

/-!
## The `validate` decorator at run time (decorators.py 89-137)

At decoration time `validate.__init__` stores `fields or []`, the
`manager_field_validators` flag and the `skip_required` flag on the
decorator instance, and `validate.__call__` copies `self.fields` onto the
wrapper as `action.fields` and `action.original_fields` (and
`self.original_fields`).  At call time (lines 123-131), when
`manager_field_validators` is set, `self.fields` is *rebound* (not mutated
in place — `+` builds a fresh list) to `self.original_fields +
cls.manager.field_validators`, and `request.validate` receives
`action.original_fields + cls.manager.field_validators` with
`skip_required=self.skip_required`; otherwise `request.validate` receives
`action.original_fields` alone.  The body `f` runs only if
`request.validate` returns.  Because the rebinding never mutates a list in
place, value semantics on the record below reproduce every attribute an
observer can read.
-/

/-- The mutable state of one `validate` decorator instance together with
the attributes stored on its wrapped `action`: `self.fields` (rebound per
call when `manager_field_validators` is set), `self.original_fields`,
`action.fields`, `action.original_fields`, and the two flags. -/
structure ValidateState where
  self_fields : List Field
  original_fields : List Field
  action_fields : List Field
  action_original_fields : List Field
  manager_field_validators : Bool
  skip_required : Bool
deriving DecidableEq, Repr

/-- `validate.__init__` (96-109) followed by the decoration-time attribute
assignments of `validate.__call__` (133-136).  `fields or []` maps both
`None` and an empty list to `[]`. -/
def validateDecorate (fields : Option (List Field)) (mfv skip : Bool) : ValidateState :=
  let fl := match fields with
    | none => []
    | some l => l
  { self_fields := fl
    original_fields := fl
    action_fields := fl
    action_original_fields := fl
    manager_field_validators := mfv
    skip_required := skip }

/-- An observable event of one `action` invocation: the `request.validate`
call with the field list and `skip_required` flag it was passed, and the
run of the wrapped body `f`. -/
inductive VEv
  | vcall (fields : List Field) (skip : Bool)
  | vbody
deriving DecidableEq, Repr

/-- The per-call inputs the wrapped `action` depends on: the calling
class's `cls.manager.field_validators`, the behaviour of
`request.validate` (an oracle that either returns or raises), and the
outcome of the wrapped body `f` when it is reached. -/
structure VCallInput (Res : Type) where
  managerFieldValidators : List Field
  requestValidate : List Field → Bool → Except PyErr Unit
  body : Except PyErr Res

/-- The observable outcome of one `action` invocation: the events in
order, and the returned value or propagated exception. -/
structure VCallOut (Res : Type) where
  events : List VEv
  result : Except PyErr Res

/-- The field list handed to `request.validate` on one call (decorators.py
128 and 130): `action.original_fields + cls.manager.field_validators`
when `manager_field_validators` is set, else `action.original_fields`. -/
def vFieldsOf {Res : Type} (st : ValidateState) (i : VCallInput Res) : List Field :=
  if st.manager_field_validators then st.action_original_fields ++ i.managerFieldValidators
  else st.action_original_fields

/-- One invocation of the wrapped `action` (decorators.py 123-131):
rebinds `self.fields` when `manager_field_validators` is set, calls
`request.validate`, and runs the body only if validation returned. -/
def validateActionCall {Res : Type} (st : ValidateState) (i : VCallInput Res) :
    VCallOut Res × ValidateState :=
  let st' :=
    if st.manager_field_validators then
      { st with self_fields := st.original_fields ++ i.managerFieldValidators }
    else st
  match i.requestValidate (vFieldsOf st i) st.skip_required with
  | .error e => (⟨[.vcall (vFieldsOf st i) st.skip_required], .error e⟩, st')
  | .ok _ => (⟨[.vcall (vFieldsOf st i) st.skip_required, .vbody], i.body⟩, st')

/-- A sequence of invocations of the same wrapped `action`, possibly
through subclasses with different managers: returns the outcome of every
call and the final decorator state. -/
def validateRunSeq {Res : Type} (st : ValidateState) :
    List (VCallInput Res) → List (VCallOut Res) × ValidateState
  | [] => ([], st)
  | i :: is =>
      let p := validateActionCall st i
      let q := validateRunSeq p.2 is
      (p.1 :: q.1, q.2)

/-- The variant of `validateActionCall` without the line
`self.fields = self.original_fields + cls.manager.field_validators`
(decorators.py 127) — the apparently-dead state mutation the spec tells an
implementer not to reproduce.  Everything else is identical. -/
def validateActionCallSpec {Res : Type} (st : ValidateState) (i : VCallInput Res) :
    VCallOut Res × ValidateState :=
  match i.requestValidate (vFieldsOf st i) st.skip_required with
  | .error e => (⟨[.vcall (vFieldsOf st i) st.skip_required], .error e⟩, st)
  | .ok _ => (⟨[.vcall (vFieldsOf st i) st.skip_required, .vbody], i.body⟩, st)

/-- `validateRunSeq` for the variant without the `self.fields`
reassignment. -/
def validateRunSeqSpec {Res : Type} (st : ValidateState) :
    List (VCallInput Res) → List (VCallOut Res) × ValidateState
  | [] => ([], st)
  | i :: is =>
      let p := validateActionCallSpec st i
      let q := validateRunSeqSpec p.2 is
      (p.1 :: q.1, q.2)

/-- Whether an event is a `request.validate` invocation. -/
def VEv.isVcall : VEv → Bool
  | .vcall _ _ => true
  | .vbody => false

/-!
## The apimethod runtime wrapper (decorators.py 61-86)

`wrapped(cls, request, *args, **kwargs)` iterates `cls.preprocessors` in
order, calling each as `proc(cls, f.__name__, request, *args, **kwargs)`;
then runs `f`; then iterates `cls.postprocessors`, calling each as
`proc(cls, f.__name__, request, resource, *args, **kwargs)`; finally
returns `resource`.  Nothing is caught: an exception anywhere aborts the
rest of the chain and propagates.
-/

/-- A pre-processor: receives `(cls, f.__name__, request, *args,
**kwargs)` and either returns or raises. -/
abbrev PreProc (Req : Type) :=
  String → String → Req → List ArgV → KwArgs → Except PyErr Unit

/-- A post-processor: receives `(cls, f.__name__, request, resource,
*args, **kwargs)` and either returns or raises. -/
abbrev PostProc (Req Res : Type) :=
  String → String → Req → Res → List ArgV → KwArgs → Except PyErr Unit

/-- An observable event of one `wrapped` invocation: the invocation of the
pre-processor at a given registration index with its arguments, the run of
the underlying function `f`, or the invocation of a post-processor with
the result included. -/
inductive APEv (Req Res : Type)
  | pre (idx : Nat) (cls fname : String) (request : Req) (args : List ArgV) (kwargs : KwArgs)
  | bodyRun (cls : String) (request : Req) (args : List ArgV) (kwargs : KwArgs)
  | post (idx : Nat) (cls fname : String) (request : Req) (result : Res)
      (args : List ArgV) (kwargs : KwArgs)

/-- Runs a pre-processor list in registration order starting at index `k`;
stops at (and records) the first raising processor. -/
def runPres {Req Res : Type} (cls fname : String) (req : Req) (args : List ArgV)
    (kw : KwArgs) : Nat → List (PreProc Req) → List (APEv Req Res) × Option PyErr
  | _, [] => ([], none)
  | k, p :: rest =>
      match p cls fname req args kw with
      | .error e => ([.pre k cls fname req args kw], some e)
      | .ok _ =>
          let q := runPres cls fname req args kw (k + 1) rest
          (.pre k cls fname req args kw :: q.1, q.2)

/-- Runs a post-processor list in registration order starting at index
`k`; stops at (and records) the first raising processor. -/
def runPosts {Req Res : Type} (cls fname : String) (req : Req) (res : Res)
    (args : List ArgV) (kw : KwArgs) :
    Nat → List (PostProc Req Res) → List (APEv Req Res) × Option PyErr
  | _, [] => ([], none)
  | k, p :: rest =>
      match p cls fname req res args kw with
      | .error e => ([.post k cls fname req res args kw], some e)
      | .ok _ =>
          let q := runPosts cls fname req res args kw (k + 1) rest
          (.post k cls fname req res args kw :: q.1, q.2)

/-- One invocation of `wrapped` (decorators.py 72-80): pre-processors,
then the underlying function, then post-processors; the first exception
anywhere propagates and aborts everything after it. -/
def apimethodRun {Req Res : Type} (pres : List (PreProc Req))
    (posts : List (PostProc Req Res))
    (body : String → Req → List ArgV → KwArgs → Except PyErr Res)
    (cls fname : String) (req : Req) (args : List ArgV) (kw : KwArgs) :
    List (APEv Req Res) × Except PyErr Res :=
  let p := @runPres Req Res cls fname req args kw 0 pres
  match p.2 with
  | some e => (p.1, .error e)
  | none =>
      match body cls req args kw with
      | .error e => (p.1 ++ [.bodyRun cls req args kw], .error e)
      | .ok res =>
          let q := runPosts cls fname req res args kw 0 posts
          match q.2 with
          | some e => (p.1 ++ [.bodyRun cls req args kw] ++ q.1, .error e)
          | none => (p.1 ++ [.bodyRun cls req args kw] ++ q.1, .ok res)

/-- The pre-processor events for indices `k, k+1, ..., k+n-1`. -/
def preEvs {Req Res : Type} (cls fname : String) (req : Req) (args : List ArgV)
    (kw : KwArgs) : Nat → Nat → List (APEv Req Res)
  | _, 0 => []
  | k, n + 1 => .pre k cls fname req args kw :: preEvs cls fname req args kw (k + 1) n

/-- The post-processor events for indices `k, k+1, ..., k+n-1`. -/
def postEvs {Req Res : Type} (cls fname : String) (req : Req) (res : Res)
    (args : List ArgV) (kw : KwArgs) : Nat → Nat → List (APEv Req Res)
  | _, 0 => []
  | k, n + 1 =>
      .post k cls fname req res args kw :: postEvs cls fname req res args kw (k + 1) n

/-!
## The `translate` decorator's signature (decorators.py 140-156) and the
decorations written in restmixins.py

`translate.__init__(self, fields=None, manager_field_validators=False)` is
the decorator's whole keyword surface, and its `__call__` wrapper only ever
invokes `request.translate`, never `request.validate`.  restmixins.py
nevertheless decorates `Create.create` with
`translate(manager_field_validators=True, validate=True)` (line 28),
`RetrieveList.retrieve_list` with `translate(manager_field_validators=True,
validate=False)` (line 102) and `Update.update` with
`translate(manager_field_validators=True, skip_required=True,
validate=True)` (line 182).  CPython binds a call's keywords against the
declared parameters and raises `TypeError` at the first keyword in call
order that matches no parameter — here at class-body execution (import)
time, before any action object exists.
-/

/-- A keyword-argument value passed to `translate(...)`. -/
inductive KwV
  | b (v : Bool)
  | fieldList (l : List Field)
deriving DecidableEq, Repr

/-- The decorator state produced by a successful `translate.__init__`
(decorators.py 147-155). -/
structure TranslateState where
  fields : List Field
  manager_field_validators : Bool
deriving DecidableEq, Repr

/-- The keyword parameters `translate.__init__` declares besides `self`
(decorators.py 147). -/
def translateParams : List String := ["fields", "manager_field_validators"]

/-- Embeds CPython keyword binding for `translate.__init__`: the first
keyword in call order matching no declared parameter raises `TypeError`
naming it; otherwise the stored state applies the declared defaults, with
`fields or []` mapping an omitted or falsy `fields` to `[]`. -/
def translateInit (kwargs : List (String × KwV)) : Except PyErr TranslateState :=
  match kwargs.find? (fun kv => !translateParams.contains kv.1) with
  | some kv => .error (.typeError kv.1)
  | none =>
      let fl :=
        match kwargs.lookup "fields" with
        | some (.fieldList l) => l
        | _ => []
      let mfv :=
        match kwargs.lookup "manager_field_validators" with
        | some (.b v) => v
        | _ => false
      .ok { fields := fl, manager_field_validators := mfv }

/-- The keyword arguments of the `translate` decoration over
`Create.create` (restmixins.py 28), in the order written. -/
def createTranslateKwargs : List (String × KwV) :=
  [("manager_field_validators", .b true), ("validate", .b true)]

/-- The keyword arguments of the `translate` decoration over
`Update.update` (restmixins.py 182), in the order written. -/
def updateTranslateKwargs : List (String × KwV) :=
  [("manager_field_validators", .b true), ("skip_required", .b true),
   ("validate", .b true)]

/-!
## CRUD+L mixin composition and link accumulation (restmixins.py)

The classes of restmixins.py and their `links` classproperties are
embedded over Python's actual attribute resolution: the MRO of every class
is computed by C3 linearization from the class statements, and a
classproperty or staticmethod is resolved to the first definition along
the accessing class's MRO.  Two collaborating pieces are code of this
repository that is not under src/ and are modelled from the spec:
`classproperty` (imported from ripozo.decorators) resolves its function
per access with the accessing class — the most derived one — as `cls`
(spec sections 4.2 and 9), and `ResourceBase`
(ripozo/resources/resource_base.py) contributes no base links of its own,
so a resource whose mixins declare no base links exposes exactly its
declared `_links` (spec section 8: the accumulated links are the declared
`_links` plus each mixin's own base links).
-/

/-- The classes declared in restmixins.py plus `ResourceBase`. -/
inductive RName
  | resourceBase
  | create
  | retrieve
  | retrieveList
  | retrieveRetrieveList
  | update
  | delete
  | retrieveUpdate
  | retrieveUpdateDelete
  | createRetrieve
  | createRetrieveUpdate
  | crud
  | crudl
deriving DecidableEq, Repr

/-- The direct base classes, in declaration order (restmixins.py class
statements). -/
def bases : RName → List RName
  | .resourceBase => []
  | .create => [.resourceBase]
  | .retrieve => [.resourceBase]
  | .retrieveList => [.resourceBase]
  | .retrieveRetrieveList => [.retrieveList, .retrieve]
  | .update => [.resourceBase]
  | .delete => [.resourceBase]
  | .retrieveUpdate => [.retrieve, .update]
  | .retrieveUpdateDelete => [.retrieve, .update, .delete]
  | .createRetrieve => [.create, .retrieve]
  | .createRetrieveUpdate => [.create, .retrieve, .update]
  | .crud => [.create, .retrieve, .update, .delete]
  | .crudl => [.create, .retrieveRetrieveList, .update, .delete]

/-- C3 head candidate check: a head is good when it appears in the tail of
no sequence. -/
def goodHead (seqs : List (List RName)) (h : RName) : Bool :=
  seqs.all (fun s => !(s.tail.contains h))

/-- The first good head among the sequences' heads, in order. -/
def pickHead (seqs : List (List RName)) : Option RName :=
  (seqs.filterMap List.head?).find? (goodHead seqs)

/-- Python's C3 merge, with fuel. -/
def c3merge : Nat → List (List RName) → Option (List RName)
  | 0, _ => none
  | fuel + 1, seqs =>
      let seqs2 := seqs.filter (fun s => !s.isEmpty)
      if seqs2.isEmpty then some []
      else
        match pickHead seqs2 with
        | none => none
        | some h =>
            match c3merge fuel (seqs2.map (fun s => s.filter (fun x => x != h))) with
            | some rest => some (h :: rest)
            | none => none

/-- Python's MRO by C3 linearization, with fuel: `mro(C) = C :: merge(mro
of each base, list of bases)`. -/
def mroAux : Nat → RName → Option (List RName)
  | 0, _ => none
  | fuel + 1, k =>
      match (bases k).mapM (mroAux fuel) with
      | none => none
      | some parentMros =>
          match c3merge 64 (parentMros ++ [bases k]) with
          | none => none
          | some merged => some (k :: merged)

/-- The MRO of each class in restmixins.py. -/
def mro (k : RName) : List RName := (mroAux 16 k).getD []

/-- Modelled from the spec: `Relationship` and `ListRelationship`
descriptors (ripozo/resources/relationships/, not under src/) are opaque
objects of which the core only records the constructor arguments it passes
(spec section 6); `false` and `[]` stand for keyword arguments a call site
omits. -/
inductive LinkDescr
  | relationship (name : String) (relation : String) (embedded : Bool)
      (query_args : List String) (no_pks : Bool)
  | listRelationship (name : String) (relation : String)
deriving DecidableEq, Repr

/-- The manager attributes read by `RetrieveList.get_base_links`
(restmixins.py 141-144; spec section 6 collaborator contract). -/
structure Manager where
  fields : List String
  pagination_pk_query_arg : String
  pagination_count_query_arg : String
deriving DecidableEq, Repr

/-- The class-level data of the concrete resource class a `links`
classproperty is accessed on: its `__name__`, its declared `_links`
(`None` or a tuple of link descriptors), and its `manager` (`None` or
set).  A user-defined subclass of any restmixins class that overrides none
of the link machinery is exactly such a datum. -/
structure ClassData where
  name : String
  _links : Option (List LinkDescr)
  manager : Option Manager

/-- The query-arg tuple `RetrieveList.get_base_links` builds: the
manager's fields plus its two pagination argument names when the class has
a manager, `[]` otherwise (restmixins.py 141-146). -/
def queryFieldsOf (c : ClassData) : List String :=
  match c.manager with
  | some m => m.fields ++ [m.pagination_pk_query_arg, m.pagination_count_query_arg]
  | none => []

/-- `Create.get_base_links` (restmixins.py 60-62): one `created`
relationship naming the actual class, embedded. -/
def Create.get_base_links (c : ClassData) : List LinkDescr :=
  [.relationship "created" c.name true [] false]

/-- `RetrieveList.get_base_links` (restmixins.py 134-150): `next` and
`previous` relationships naming the actual class, parameterised by the
manager's fields and pagination argument names. -/
def RetrieveList.get_base_links (c : ClassData) : List LinkDescr :=
  [.relationship "next" c.name false (queryFieldsOf c) true,
   .relationship "previous" c.name false (queryFieldsOf c) true]

/-- The classes defining a `get_base_links` staticmethod. -/
def definesGetBaseLinks : RName → Bool
  | .create => true
  | .retrieveList => true
  | _ => false

/-- Attribute resolution of `get_base_links` on class `k` through its MRO
(used by `cls.get_base_links(cls)` in `RetrieveList.links` and by
`RetrieveRetrieveList.get_base_links` in `CRUDL.links`). -/
def getBaseLinksOf (k : RName) (c : ClassData) : List LinkDescr :=
  match (mro k).find? definesGetBaseLinks with
  | some RName.create => Create.get_base_links c
  | some RName.retrieveList => RetrieveList.get_base_links c
  | _ => []

/-- The classes defining a `links` classproperty; `resourceBase` stands
for the spec-modelled fallback (see the section comment). -/
def definesLinks : RName → Bool
  | .create => true
  | .retrieveList => true
  | .crudl => true
  | .resourceBase => true
  | _ => false

/-- The body of the `links` classproperty defined on `owner`, evaluated
with accessing class `k` and its class data `c`: `Create.links`
(restmixins.py 46-58), `RetrieveList.links` (120-132), `CRUDL.links`
(253-256), and the spec-modelled `ResourceBase` fallback. -/
def linksBody (owner : RName) (k : RName) (c : ClassData) : List LinkDescr :=
  match owner with
  | .create => c._links.getD [] ++ Create.get_base_links c
  | .retrieveList => c._links.getD [] ++ getBaseLinksOf k c
  | .crudl =>
      c._links.getD [] ++ Create.get_base_links c
        ++ getBaseLinksOf RName.retrieveRetrieveList c
  | _ => c._links.getD []

/-- The value of the `links` classproperty accessed on class `k` with
class data `c`: the first `links` definition along `k`'s MRO, evaluated
with `cls = k` (classproperty semantics). -/
def linksOf (k : RName) (c : ClassData) : List LinkDescr :=
  match (mro k).find? definesLinks with
  | some owner => linksBody owner k c
  | none => c._links.getD []

/-- The link-contributing mixins among a class's ancestors, in MRO
order. -/
def linkContributors (k : RName) : List RName :=
  (mro k).filter (fun m => m == RName.create || m == RName.retrieveList)

/-- The base links contributed by one mixin. -/
def mixinBaseLinks (m : RName) (c : ClassData) : List LinkDescr :=
  match m with
  | .create => Create.get_base_links c
  | .retrieveList => RetrieveList.get_base_links c
  | _ => []

/-- Concatenation of a list of link lists. -/
def joinLinks : List (List LinkDescr) → List LinkDescr
  | [] => []
  | l :: ls => l ++ joinLinks ls

end Ripozo

namespace Ripozo

/-- Claim C4: for every stacking order of the `validate`, `translate` and
`apimethod` decorators applied to one function, the `routes` list on the
final decorated object equals the concatenation, innermost first, of the
route entries contributed at every layer — each `apimethod` application
appends exactly one `(route, endpoint, options)` entry and no entry is
lost or duplicated across the layers. -/
theorem routes_accumulate_across_layers (f : FuncObj) (layers : List Layer) :
    (applyLayers layers f).routes = f.routes ++ layersRoutes layers := by
  induction layers generalizing f with
  | nil => simp [applyLayers, layersRoutes]
  | cons l ls ih =>
      cases l with
      | apim route endpoint options =>
          simp [applyLayers, layersRoutes, layerRoutes, applyLayer, ih, List.append_assoc]
      | valid fields mfv skip =>
          simp [applyLayers, layersRoutes, layerRoutes, applyLayer, ih]
      | transl fields mfv =>
          simp [applyLayers, layersRoutes, layerRoutes, applyLayer, ih]

/-- Claim C5: for every underlying function of an `apimethod`-decorated
action defined on a base class and accessed on a subclass `B` — through
the class (`__get__(None, B)`), through an instance of `B` (`__get__(b,
B)`), or through a manual `__get__(b, None)` — calling the bound function
on a non-type first argument invokes the underlying function with `cls =
B`.  The binding depends only on the class the attribute is accessed on
(which ancestor defines the descriptor never enters `__get__`), and a
fresh closure over `klass` is built on every access, so nothing is cached
at class-definition time. -/
theorem apiclassmethod_binds_accessing_class {β : Type} (f : List ArgV → β)
    (B : String) (b : PyInstance) (r : ArgV) (rest : List ArgV)
    (hb : b.cls = B) (hr : isType r = false) :
    ((dunderGet (apiclassmethod.mk f true []) none (some B)).call (r :: rest) []
        = .ok (f (.typeArg B :: r :: rest)))
    ∧ ((dunderGet (apiclassmethod.mk f true []) (some b) (some B)).call (r :: rest) []
        = .ok (f (.typeArg B :: r :: rest)))
    ∧ ((dunderGet (apiclassmethod.mk f true []) (some b) none).call (r :: rest) []
        = .ok (f (.typeArg B :: r :: rest))) := by
  subst hb
  refine ⟨?_, ?_, ?_⟩ <;> simp [dunderGet, resolveKlass, hr]

/-- Concrete run of `apiclassmethod_binds_accessing_class`: accessing the
action through subclass `B` passes the class `B`, not the defining
ancestor, as `cls`. -/
theorem apiclassmethod_binds_accessing_class_witness :
    (dunderGet (apiclassmethod.mk (fun args => args) true []) none (some "B")).call
        [ArgV.reqArg 0] []
      = .ok [ArgV.typeArg "B", ArgV.reqArg 0] :=
  (apiclassmethod_binds_accessing_class (fun args => args) "B"
    (PyInstance.mk "B") (ArgV.reqArg 0) [] rfl rfl).1

/-- Claim C10: the bound function `newfunc` obtained from
`_apiclassmethod.__get__` forwards positional arguments only — calling it
with any keyword argument raises `TypeError` naming that keyword, before
anything is forwarded — even though the underlying `wrapped(cls, request,
*args, **kwargs)` built by `apimethod` accepts arbitrary non-colliding
keyword arguments. -/
theorem bound_call_rejects_keyword_arguments {β : Type} (f : List ArgV → β)
    (routes : List RouteEntry) (obj : Option PyInstance) (klass : Option String)
    (pos : List ArgV) (name : String) (v : ArgV) (kwrest : KwArgs)
    (c r : ArgV) (rest : List ArgV)
    (hcls : popKw "cls" ((name, v) :: kwrest) = none)
    (hreq : popKw "request" ((name, v) :: kwrest) = none) :
    ((dunderGet (apiclassmethod.mk f true routes) obj klass).call pos ((name, v) :: kwrest)
        = .error (.typeError name))
    ∧ (bindWrapped (c :: r :: rest) ((name, v) :: kwrest)
        = .ok (c, r, rest, (name, v) :: kwrest)) := by
  constructor
  · simp [dunderGet]
  · simp [bindWrapped, hcls, hreq]

/-- Helper: one `action` invocation never changes any attribute the
wrapped action reads — only `self.fields` is rebound. -/
theorem validateActionCall_state {Res : Type} (st : ValidateState) (i : VCallInput Res) :
    (validateActionCall st i).2.original_fields = st.original_fields
    ∧ (validateActionCall st i).2.action_fields = st.action_fields
    ∧ (validateActionCall st i).2.action_original_fields = st.action_original_fields
    ∧ (validateActionCall st i).2.manager_field_validators = st.manager_field_validators
    ∧ (validateActionCall st i).2.skip_required = st.skip_required := by
  by_cases hm : st.manager_field_validators <;>
    cases hv : i.requestValidate (vFieldsOf st i) st.skip_required <;>
      simp [validateActionCall, hv, hm]

/-- Helper: across any sequence of invocations, the decorator state keeps
its decoration-time `original_fields`, `action.fields`,
`action.original_fields` and flags. -/
theorem validateRunSeq_state_fixed {Res : Type} (st : ValidateState)
    (inputs : List (VCallInput Res)) :
    (validateRunSeq st inputs).2.original_fields = st.original_fields
    ∧ (validateRunSeq st inputs).2.action_fields = st.action_fields
    ∧ (validateRunSeq st inputs).2.action_original_fields = st.action_original_fields
    ∧ (validateRunSeq st inputs).2.manager_field_validators = st.manager_field_validators
    ∧ (validateRunSeq st inputs).2.skip_required = st.skip_required := by
  induction inputs generalizing st with
  | nil => simp [validateRunSeq]
  | cons i is ih =>
      have hs := validateActionCall_state st i
      have ht := ih (validateActionCall st i).2
      simp only [validateRunSeq]
      exact ⟨ht.1.trans hs.1, ht.2.1.trans hs.2.1, ht.2.2.1.trans hs.2.2.1,
        ht.2.2.2.1.trans hs.2.2.2.1, ht.2.2.2.2.trans hs.2.2.2.2⟩

/-- Helper: the emitted `request.validate` calls of a whole sequence,
for an arbitrary decorator state. -/
theorem validateRunSeq_vcalls {Res : Type} (st : ValidateState)
    (inputs : List (VCallInput Res)) :
    ((validateRunSeq st inputs).1.map (fun o => o.events.filter VEv.isVcall))
      = inputs.map (fun i => [VEv.vcall (vFieldsOf st i) st.skip_required]) := by
  induction inputs generalizing st with
  | nil => simp [validateRunSeq]
  | cons i is ih =>
      have hs := validateActionCall_state st i
      have ht := ih (validateActionCall st i).2
      have hfix : ∀ j : VCallInput Res,
          vFieldsOf (validateActionCall st i).2 j = vFieldsOf st j := by
        intro j
        simp [vFieldsOf, hs.2.2.1, hs.2.2.2.1]
      simp only [validateRunSeq, List.map_cons]
      congr 1
      · cases hv : i.requestValidate (vFieldsOf st i) st.skip_required <;>
          simp [validateActionCall, hv, VEv.isVcall]
      · rw [ht]
        simp [hfix, hs.2.2.2.2]

/-- Claim C6: for every call sequence through a wrapped action decorated
by `validate(fields, manager_field_validators, skip_required)`, each call
makes exactly one `request.validate` invocation; when
`manager_field_validators` is false it receives exactly the field list
fixed at decoration time with the given `skip_required` flag, and when it
is true it receives that decoration-time list concatenated with the
calling class's `manager.field_validators` resolved at call time, with the
same `skip_required` flag. -/
theorem validate_calls_decoration_fields_plus_manager {Res : Type}
    (fields : Option (List Field)) (mfv skip : Bool)
    (inputs : List (VCallInput Res)) :
    ((validateRunSeq (validateDecorate fields mfv skip) inputs).1.map
        (fun o => o.events.filter VEv.isVcall))
      = inputs.map (fun i => [VEv.vcall
          (if mfv then fields.getD [] ++ i.managerFieldValidators else fields.getD [])
          skip]) := by
  rw [validateRunSeq_vcalls]
  cases fields <;> simp [vFieldsOf, validateDecorate]

/-- Claim C7: for every action wrapped by `validate`, if
`request.validate` raises, the wrapped body is never invoked and the error
propagates unmodified; the body runs only after validation succeeds. -/
theorem validate_error_short_circuits {Res : Type} (st : ValidateState)
    (i : VCallInput Res) :
    (∀ e : PyErr, i.requestValidate (vFieldsOf st i) st.skip_required = .error e →
        (validateActionCall st i).1.result = .error e
        ∧ VEv.vbody ∉ (validateActionCall st i).1.events)
    ∧ (i.requestValidate (vFieldsOf st i) st.skip_required = .ok () →
        (validateActionCall st i).1.events
            = [VEv.vcall (vFieldsOf st i) st.skip_required, VEv.vbody]
        ∧ (validateActionCall st i).1.result = i.body) := by
  constructor
  · intro e he
    simp [validateActionCall, he]
  · intro hok
    simp [validateActionCall, hok]

/-- Concrete run of `validate_error_short_circuits`: a failing
`request.validate` makes the call return that error with no body event. -/
theorem validate_error_short_circuits_witness :
    (@validateActionCall Nat (validateDecorate (some ["a"]) true false)
        ⟨["c"], fun _ _ => .error (.validationError 7), .ok 37⟩).1.result
      = .error (.validationError 7)
    ∧ VEv.vbody ∉ (@validateActionCall Nat
        (validateDecorate (some ["a"]) true false)
        ⟨["c"], fun _ _ => .error (.validationError 7), .ok 37⟩).1.events :=
  (validate_error_short_circuits (validateDecorate (some ["a"]) true false)
    ⟨["c"], fun _ _ => .error (.validationError 7), .ok 37⟩).1
    (.validationError 7) rfl

/-- Helper: the spec-side variant never changes the decorator state. -/
theorem validateActionCallSpec_state {Res : Type} (t : ValidateState)
    (i : VCallInput Res) :
    (validateActionCallSpec t i).2 = t := by
  cases hv : i.requestValidate (vFieldsOf t i) t.skip_required <;>
    simp [validateActionCallSpec, hv]

/-- Helper: one call's observable outcome coincides between the source
wrapper and the variant without the `self.fields` reassignment, for any
two states that agree on everything the call reads. -/
theorem validateActionCall_out_eq {Res : Type} (s t : ValidateState) (i : VCallInput Res)
    (h3 : s.action_original_fields = t.action_original_fields)
    (h4 : s.manager_field_validators = t.manager_field_validators)
    (h5 : s.skip_required = t.skip_required) :
    (validateActionCall s i).1 = (validateActionCallSpec t i).1 := by
  have hf : vFieldsOf s i = vFieldsOf t i := by
    simp [vFieldsOf, h3, h4]
  cases hv : i.requestValidate (vFieldsOf t i) t.skip_required <;>
    simp [validateActionCall, validateActionCallSpec, hf, h5, hv]

/-- Helper: the whole call-sequence outcome coincides between the source
wrapper and the reassignment-free variant. -/
theorem validateRunSeq_out_eq_spec {Res : Type} (inputs : List (VCallInput Res))
    (s t : ValidateState)
    (h3 : s.action_original_fields = t.action_original_fields)
    (h4 : s.manager_field_validators = t.manager_field_validators)
    (h5 : s.skip_required = t.skip_required) :
    (validateRunSeq s inputs).1 = (validateRunSeqSpec t inputs).1 := by
  induction inputs generalizing s with
  | nil => simp [validateRunSeq, validateRunSeqSpec]
  | cons i is ih =>
      have hs := validateActionCall_state s i
      have hhead := validateActionCall_out_eq s t i h3 h4 h5
      have htail := ih (validateActionCall s i).2 (hs.2.2.1.trans h3)
        (hs.2.2.2.1.trans h4) (hs.2.2.2.2.trans h5)
      simp only [validateRunSeq, validateRunSeqSpec, validateActionCallSpec_state]
      rw [hhead, htail]

/-- Claim C9: the call-time reassignment `self.fields = original_fields +
cls.manager.field_validators` (decorators.py 127) has no observable
consequence — for every decorator state and every call sequence, possibly
through subclasses with different managers, the emitted events and results
coincide with the variant that omits the reassignment, and the
`action.fields` / `action.original_fields` attributes never change. -/
theorem validate_reassignment_unobservable {Res : Type} (st : ValidateState)
    (inputs : List (VCallInput Res)) :
    (validateRunSeq st inputs).1 = (validateRunSeqSpec st inputs).1
    ∧ (validateRunSeq st inputs).2.action_fields = st.action_fields
    ∧ (validateRunSeq st inputs).2.action_original_fields = st.action_original_fields := by
  have h := validateRunSeq_state_fixed st inputs
  exact ⟨validateRunSeq_out_eq_spec inputs st st rfl rfl rfl, h.2.1, h.2.2.1⟩

/-- Helper: a pre-processor list that raises nowhere runs completely, in
order, with consecutive indices. -/
theorem runPres_all_ok {Req Res : Type} (cls fname : String) (req : Req)
    (args : List ArgV) (kw : KwArgs) (k : Nat) (pres : List (PreProc Req))
    (h : ∀ p ∈ pres, p cls fname req args kw = .ok ()) :
    @runPres Req Res cls fname req args kw k pres
      = (preEvs cls fname req args kw k pres.length, none) := by
  induction pres generalizing k with
  | nil => simp [runPres, preEvs]
  | cons p rest ih =>
      have hp : p cls fname req args kw = .ok () := h p (by simp)
      have hrest : ∀ q ∈ rest, q cls fname req args kw = .ok () :=
        fun q hq => h q (by simp [hq])
      simp [runPres, hp, preEvs, ih (k + 1) hrest]

/-- Helper: the first raising pre-processor stops the chain right there,
after the processors before it ran in order. -/
theorem runPres_first_error {Req Res : Type} (cls fname : String) (req : Req)
    (args : List ArgV) (kw : KwArgs) (k : Nat) (pres₁ : List (PreProc Req))
    (p : PreProc Req) (pres₂ : List (PreProc Req)) (e : PyErr)
    (h1 : ∀ q ∈ pres₁, q cls fname req args kw = .ok ())
    (hp : p cls fname req args kw = .error e) :
    @runPres Req Res cls fname req args kw k (pres₁ ++ p :: pres₂)
      = (preEvs cls fname req args kw k (pres₁.length + 1), some e) := by
  induction pres₁ generalizing k with
  | nil => simp [runPres, hp, preEvs]
  | cons q rest ih =>
      have hq : q cls fname req args kw = .ok () := h1 q (by simp)
      have hrest : ∀ r ∈ rest, r cls fname req args kw = .ok () :=
        fun r hr => h1 r (by simp [hr])
      simp [runPres, hq, preEvs, ih (k + 1) hrest]

/-- Helper: a post-processor list that raises nowhere runs completely, in
order, with consecutive indices. -/
theorem runPosts_all_ok {Req Res : Type} (cls fname : String) (req : Req) (res : Res)
    (args : List ArgV) (kw : KwArgs) (k : Nat) (posts : List (PostProc Req Res))
    (h : ∀ p ∈ posts, p cls fname req res args kw = .ok ()) :
    runPosts cls fname req res args kw k posts
      = (postEvs cls fname req res args kw k posts.length, none) := by
  induction posts generalizing k with
  | nil => simp [runPosts, postEvs]
  | cons p rest ih =>
      have hp : p cls fname req res args kw = .ok () := h p (by simp)
      have hrest : ∀ q ∈ rest, q cls fname req res args kw = .ok () :=
        fun q hq => h q (by simp [hq])
      simp [runPosts, hp, postEvs, ih (k + 1) hrest]

/-- Helper: the first raising post-processor stops the chain right there,
after the processors before it ran in order. -/
theorem runPosts_first_error {Req Res : Type} (cls fname : String) (req : Req)
    (res : Res) (args : List ArgV) (kw : KwArgs) (k : Nat)
    (posts₁ : List (PostProc Req Res)) (p : PostProc Req Res)
    (posts₂ : List (PostProc Req Res)) (e : PyErr)
    (h1 : ∀ q ∈ posts₁, q cls fname req res args kw = .ok ())
    (hp : p cls fname req res args kw = .error e) :
    runPosts cls fname req res args kw k (posts₁ ++ p :: posts₂)
      = (postEvs cls fname req res args kw k (posts₁.length + 1), some e) := by
  induction posts₁ generalizing k with
  | nil => simp [runPosts, hp, postEvs]
  | cons q rest ih =>
      have hq : q cls fname req res args kw = .ok () := h1 q (by simp)
      have hrest : ∀ r ∈ rest, r cls fname req res args kw = .ok () :=
        fun r hr => h1 r (by simp [hr])
      simp [runPosts, hq, postEvs, ih (k + 1) hrest]

/-- Helper: a run of the underlying function never appears among
pre-processor events. -/
theorem bodyRun_not_mem_preEvs {Req Res : Type} (cls fname : String) (req : Req)
    (args : List ArgV) (kw : KwArgs) (c2 : String) (r2 : Req) (a2 : List ArgV)
    (w2 : KwArgs) (k n : Nat) :
    @APEv.bodyRun Req Res c2 r2 a2 w2 ∉ @preEvs Req Res cls fname req args kw k n := by
  induction n generalizing k with
  | zero => simp [preEvs]
  | succ n ih =>
      simp only [preEvs, List.mem_cons]
      rintro (h | h)
      · simp at h
      · exact ih (k + 1) h

/-- Claim C8: every invocation of an `apimethod`-wrapped action on a class
first calls each registered pre-processor in registration order with
`(cls, action name, request, *args, **kwargs)`, then runs the underlying
function, then calls each post-processor in registration order with the
result inserted, and returns the function's result; an exception raised by
a processor propagates unmodified and aborts the remaining chain, and a
failing pre-processor prevents the body from running. -/
theorem apimethod_processor_chain {Req Res : Type} (pres : List (PreProc Req))
    (posts : List (PostProc Req Res))
    (body : String → Req → List ArgV → KwArgs → Except PyErr Res)
    (cls fname : String) (req : Req) (args : List ArgV) (kw : KwArgs) :
    ((∀ p ∈ pres, p cls fname req args kw = .ok ()) →
      ∀ res : Res, body cls req args kw = .ok res →
      (∀ p ∈ posts, p cls fname req res args kw = .ok ()) →
      apimethodRun pres posts body cls fname req args kw
        = (preEvs cls fname req args kw 0 pres.length
            ++ [.bodyRun cls req args kw]
            ++ postEvs cls fname req res args kw 0 posts.length, .ok res))
    ∧ (∀ (pres₁ : List (PreProc Req)) (p : PreProc Req) (pres₂ : List (PreProc Req))
          (e : PyErr), pres = pres₁ ++ p :: pres₂ →
        (∀ q ∈ pres₁, q cls fname req args kw = .ok ()) →
        p cls fname req args kw = .error e →
        apimethodRun pres posts body cls fname req args kw
          = (preEvs cls fname req args kw 0 (pres₁.length + 1), .error e)
        ∧ APEv.bodyRun cls req args kw
            ∉ (apimethodRun pres posts body cls fname req args kw).1)
    ∧ (∀ (res : Res) (posts₁ : List (PostProc Req Res)) (q : PostProc Req Res)
          (posts₂ : List (PostProc Req Res)) (e : PyErr),
        (∀ p ∈ pres, p cls fname req args kw = .ok ()) →
        body cls req args kw = .ok res →
        posts = posts₁ ++ q :: posts₂ →
        (∀ p ∈ posts₁, p cls fname req res args kw = .ok ()) →
        q cls fname req res args kw = .error e →
        apimethodRun pres posts body cls fname req args kw
          = (preEvs cls fname req args kw 0 pres.length
              ++ [.bodyRun cls req args kw]
              ++ postEvs cls fname req res args kw 0 (posts₁.length + 1), .error e)) := by
  refine ⟨?_, ?_, ?_⟩
  · intro hpre res hbody hpost
    have h1 := @runPres_all_ok Req Res cls fname req args kw 0 pres hpre
    have h2 := runPosts_all_ok cls fname req res args kw 0 posts hpost
    simp [apimethodRun, h1, hbody, h2]
  · intro pres₁ p pres₂ e hsplit h1 hp
    have hr := @runPres_first_error Req Res cls fname req args kw 0 pres₁ p pres₂ e h1 hp
    subst hsplit
    refine ⟨by simp [apimethodRun, hr], ?_⟩
    simp only [apimethodRun, hr]
    exact bodyRun_not_mem_preEvs cls fname req args kw cls req args kw 0 (pres₁.length + 1)
  · intro res posts₁ q posts₂ e hpre hbody hsplit h1 hq
    have h2 := @runPres_all_ok Req Res cls fname req args kw 0 pres hpre
    have h3 := runPosts_first_error cls fname req res args kw 0 posts₁ q posts₂ e h1 hq
    subst hsplit
    simp [apimethodRun, h2, hbody, h3]

/-- Concrete run of `apimethod_processor_chain`: one succeeding
pre-processor, a body returning `5`, one succeeding post-processor — the
trace is pre, body, post, in order, and the body's result is returned. -/
theorem apimethod_processor_chain_witness :
    @apimethodRun Nat Nat
        [fun _ _ _ _ _ => .ok ()] [fun _ _ _ _ _ _ => .ok ()]
        (fun _ _ _ _ => .ok 5) "C" "create" 1 [] []
      = ([.pre 0 "C" "create" 1 [] [], .bodyRun "C" 1 [] [],
          .post 0 "C" "create" 1 5 [] []], .ok 5) := by
  have h := (@apimethod_processor_chain Nat Nat
    [fun _ _ _ _ _ => .ok ()] [fun _ _ _ _ _ _ => .ok ()]
    (fun _ _ _ _ => .ok 5) "C" "create" 1 [] []).1
    (by intro p hp; simp at hp; subst hp; rfl) 5 rfl
    (by intro p hp; simp at hp; subst hp; rfl)
  simpa [preEvs, postEvs] using h

/-- Claim C2 (code bug): the claim's update action cannot exist.
`Update.update` is decorated `translate(manager_field_validators=True,
skip_required=True, validate=True)` (restmixins.py 182), but
`translate.__init__` (decorators.py 147) declares only `fields` and
`manager_field_validators`, so executing the `Update` class body raises
`TypeError` for the unexpected keyword `skip_required` at import time —
and even apart from that, `translate` only ever calls `request.translate`,
never `request.validate`, so no validation with `skip_required=True`
happens anywhere in this code. -/
theorem update_translate_decoration_raises :
    translateInit updateTranslateKwargs = .error (.typeError "skip_required") := rfl

/-- Claim C3 (code bug): the claim's create action cannot exist.
`Create.create` is decorated `translate(manager_field_validators=True,
validate=True)` (restmixins.py 28), but `translate.__init__`
(decorators.py 147) declares only `fields` and
`manager_field_validators`, so executing the `Create` class body raises
`TypeError` for the unexpected keyword `validate` at import time, before
any resource with a 201 status or `created` link can be produced; the
`translate` wrapper also never calls `request.validate`. -/
theorem create_translate_decoration_raises :
    translateInit createTranslateKwargs = .error (.typeError "validate") := rfl

/-- Claim C1: for every resource class of the CRUD+L hierarchy and every
concrete class datum (name, declared `_links`, manager), the `links`
classproperty yields exactly the declared `_links` followed by the base
links of each link-contributing constituent mixin, each contribution
exactly once — nothing is dropped by diamond inheritance and nothing is
duplicated by repeated ancestor traversal; in particular CRUDL's links
contain Create's `created` link and RetrieveRetrieveList's `next` and
`previous` links. -/
theorem links_accumulate_without_loss (k : RName) (c : ClassData) :
    (linksOf k c
        = c._links.getD []
          ++ joinLinks ((linkContributors k).map (fun m => mixinBaseLinks m c)))
    ∧ LinkDescr.relationship "created" c.name true [] false ∈ linksOf RName.crudl c
    ∧ LinkDescr.relationship "next" c.name false (queryFieldsOf c) true
        ∈ linksOf RName.crudl c
    ∧ LinkDescr.relationship "previous" c.name false (queryFieldsOf c) true
        ∈ linksOf RName.crudl c := by
  have hcrudl : linksOf RName.crudl c
      = c._links.getD [] ++ Create.get_base_links c ++ RetrieveList.get_base_links c :=
    rfl
  refine ⟨?_, ?_, ?_, ?_⟩
  · cases k with
    | resourceBase =>
        rw [show linksOf RName.resourceBase c = c._links.getD [] from rfl,
          show linkContributors RName.resourceBase = [] from rfl]
        simp [joinLinks]
    | create =>
        rw [show linksOf RName.create c
            = c._links.getD [] ++ Create.get_base_links c from rfl,
          show linkContributors RName.create = [RName.create] from rfl]
        simp [joinLinks, mixinBaseLinks]
    | retrieve =>
        rw [show linksOf RName.retrieve c = c._links.getD [] from rfl,
          show linkContributors RName.retrieve = [] from rfl]
        simp [joinLinks]
    | retrieveList =>
        rw [show linksOf RName.retrieveList c
            = c._links.getD [] ++ RetrieveList.get_base_links c from rfl,
          show linkContributors RName.retrieveList = [RName.retrieveList] from rfl]
        simp [joinLinks, mixinBaseLinks]
    | retrieveRetrieveList =>
        rw [show linksOf RName.retrieveRetrieveList c
            = c._links.getD [] ++ RetrieveList.get_base_links c from rfl,
          show linkContributors RName.retrieveRetrieveList = [RName.retrieveList] from rfl]
        simp [joinLinks, mixinBaseLinks]
    | update =>
        rw [show linksOf RName.update c = c._links.getD [] from rfl,
          show linkContributors RName.update = [] from rfl]
        simp [joinLinks]
    | delete =>
        rw [show linksOf RName.delete c = c._links.getD [] from rfl,
          show linkContributors RName.delete = [] from rfl]
        simp [joinLinks]
    | retrieveUpdate =>
        rw [show linksOf RName.retrieveUpdate c = c._links.getD [] from rfl,
          show linkContributors RName.retrieveUpdate = [] from rfl]
        simp [joinLinks]
    | retrieveUpdateDelete =>
        rw [show linksOf RName.retrieveUpdateDelete c = c._links.getD [] from rfl,
          show linkContributors RName.retrieveUpdateDelete = [] from rfl]
        simp [joinLinks]
    | createRetrieve =>
        rw [show linksOf RName.createRetrieve c
            = c._links.getD [] ++ Create.get_base_links c from rfl,
          show linkContributors RName.createRetrieve = [RName.create] from rfl]
        simp [joinLinks, mixinBaseLinks]
    | createRetrieveUpdate =>
        rw [show linksOf RName.createRetrieveUpdate c
            = c._links.getD [] ++ Create.get_base_links c from rfl,
          show linkContributors RName.createRetrieveUpdate = [RName.create] from rfl]
        simp [joinLinks, mixinBaseLinks]
    | crud =>
        rw [show linksOf RName.crud c
            = c._links.getD [] ++ Create.get_base_links c from rfl,
          show linkContributors RName.crud = [RName.create] from rfl]
        simp [joinLinks, mixinBaseLinks]
    | crudl =>
        rw [hcrudl,
          show linkContributors RName.crudl = [RName.create, RName.retrieveList] from rfl]
        simp [joinLinks, mixinBaseLinks, List.append_assoc]
  · rw [hcrudl]
    simp [Create.get_base_links, RetrieveList.get_base_links]
  · rw [hcrudl]
    simp [Create.get_base_links, RetrieveList.get_base_links]
  · rw [hcrudl]
    simp [Create.get_base_links, RetrieveList.get_base_links]

/-- Concrete run of `bound_call_rejects_keyword_arguments`: passing
`foo=0` to the bound function raises `TypeError`, while the underlying
wrapped action binds the same keyword into `**kwargs`. -/
theorem bound_call_rejects_keyword_arguments_witness :
    ((dunderGet (apiclassmethod.mk (fun args => args) true []) none (some "B")).call
        [ArgV.reqArg 0] [("foo", ArgV.natArg 0)]
      = .error (.typeError "foo"))
    ∧ (bindWrapped [ArgV.typeArg "B", ArgV.reqArg 0] [("foo", ArgV.natArg 0)]
      = .ok (ArgV.typeArg "B", ArgV.reqArg 0, [], [("foo", ArgV.natArg 0)])) :=
  bound_call_rejects_keyword_arguments (fun args => args) [] none (some "B")
    [ArgV.reqArg 0] "foo" (ArgV.natArg 0) [] (ArgV.typeArg "B") (ArgV.reqArg 0) []
    (by decide) (by decide)

end Ripozo
